import Mathlib

/-!
Verification of the multi-tab detection hook (src/src/index.tsx, types in
src/unnamed/part_000) against its natural-language specification.

The hook keeps a presence table of known tabs (a JS Map from tab id to
TabInfo), driven by BroadcastChannel messages, a periodic heartbeat, and a
periodic inactivity reaper, and elects the lexicographically smallest tab id
as leader.  This file is a shallow embedding: JS strings become lists of
characters, the JS Map becomes an association list with unique keys kept in
insertion order, Date.now timestamps become integers, and each handler
becomes a pure state-transition function returning the new state together
with the list of message kinds it published and the callback invocation it
performed, if any.
-/

namespace MultiTab

/-- A JavaScript string (tab id or URL) modeled as its list of characters. -/
abbrev TabId := List Char

/-- Lexicographic string comparison, as used by the default Array.sort
comparator in determineLeadership (src/src/index.tsx line 107). -/
def charListLe : TabId → TabId → Bool
  | [], _ => true
  | _ :: _, [] => false
  | a :: as, b :: bs => if a < b then true else if b < a then false else charListLe as bs

/-- The comparison as a decidable relation, for use with sorting lemmas. -/
def idLe (a b : TabId) : Prop := charListLe a b = true

instance : DecidableRel idLe := fun _ _ => inferInstanceAs (Decidable (_ = true))

theorem charListLe_cons_iff (a b : Char) (as bs : TabId) :
    charListLe (a :: as) (b :: bs) = true ↔ a < b ∨ (a = b ∧ charListLe as bs = true) := by
  rcases lt_trichotomy a b with h | h | h
  · simp [charListLe, h]
  · simp [charListLe, h, lt_irrefl]
  · simp [charListLe, h, asymm h]
    intro hab
    exact absurd hab (ne_of_gt h)

theorem charListLe_refl (a : TabId) : charListLe a a = true := by
  induction a with
  | nil => rfl
  | cons x xs ih => exact (charListLe_cons_iff x x xs xs).mpr (Or.inr ⟨rfl, ih⟩)

theorem charListLe_total (a b : TabId) : charListLe a b = true ∨ charListLe b a = true := by
  induction a generalizing b with
  | nil => exact Or.inl rfl
  | cons x xs ih =>
    cases b with
    | nil => exact Or.inr rfl
    | cons y ys =>
      rcases lt_trichotomy x y with h | h | h
      · exact Or.inl ((charListLe_cons_iff x y xs ys).mpr (Or.inl h))
      · subst h
        rcases ih ys with h2 | h2
        · exact Or.inl ((charListLe_cons_iff x x xs ys).mpr (Or.inr ⟨rfl, h2⟩))
        · exact Or.inr ((charListLe_cons_iff x x ys xs).mpr (Or.inr ⟨rfl, h2⟩))
      · exact Or.inr ((charListLe_cons_iff y x ys xs).mpr (Or.inl h))

theorem charListLe_trans (a b c : TabId) (hab : charListLe a b = true)
    (hbc : charListLe b c = true) : charListLe a c = true := by
  induction a generalizing b c with
  | nil => rfl
  | cons x xs ih =>
    cases b with
    | nil => exact absurd hab (by simp [charListLe])
    | cons y ys =>
      cases c with
      | nil => exact absurd hbc (by simp [charListLe])
      | cons z zs =>
        rcases (charListLe_cons_iff x y xs ys).mp hab with h1 | ⟨h1, h1le⟩
        · rcases (charListLe_cons_iff y z ys zs).mp hbc with h2 | ⟨h2, _⟩
          · exact (charListLe_cons_iff x z xs zs).mpr (Or.inl (lt_trans h1 h2))
          · exact (charListLe_cons_iff x z xs zs).mpr (Or.inl (h2 ▸ h1))
        · subst h1
          rcases (charListLe_cons_iff x z ys zs).mp hbc with h2 | ⟨h2, h2le⟩
          · exact (charListLe_cons_iff x z xs zs).mpr (Or.inl h2)
          · exact (charListLe_cons_iff x z xs zs).mpr (Or.inr ⟨h2, ih ys zs h1le h2le⟩)

theorem charListLe_antisymm (a b : TabId) (hab : charListLe a b = true)
    (hba : charListLe b a = true) : a = b := by
  induction a generalizing b with
  | nil =>
    cases b with
    | nil => rfl
    | cons y ys => exact absurd hba (by simp [charListLe])
  | cons x xs ih =>
    cases b with
    | nil => exact absurd hab (by simp [charListLe])
    | cons y ys =>
      rcases (charListLe_cons_iff x y xs ys).mp hab with h1 | ⟨h1, h1le⟩
      · rcases (charListLe_cons_iff y x ys xs).mp hba with h2 | ⟨h2, _⟩
        · exact absurd h2 (asymm h1)
        · exact absurd h1 (h2 ▸ lt_irrefl y)
      · subst h1
        rcases (charListLe_cons_iff x x ys xs).mp hba with h2 | ⟨_, h2le⟩
        · exact absurd h2 (lt_irrefl x)
        · rw [ih ys h1le h2le]

instance : IsTotal TabId idLe := ⟨charListLe_total⟩

instance : IsTrans TabId idLe := ⟨charListLe_trans⟩

/-- TabInfo from src/unnamed/part_000: one presence entry. -/
structure TabInfo where
  tabId : TabId
  lastHeartbeat : Int
  url : String
  deriving DecidableEq, Repr

instance : Inhabited TabInfo := ⟨⟨[], 0, ""⟩⟩

/-- The JS Map from tab id to TabInfo (activeTabsRef.current), modeled as an
association list with unique keys kept in insertion order. -/
abbrev PresenceTable := List (TabId × TabInfo)

/-- JS Map.set: replace the value in place when the key is present, append
otherwise. -/
def mapSet : PresenceTable → TabId → TabInfo → PresenceTable
  | [], k, v => [(k, v)]
  | p :: rest, k, v => if p.1 = k then (k, v) :: rest else p :: mapSet rest k v

/-- JS Map.get, returning none when the key is absent. -/
def mapLookup : PresenceTable → TabId → Option TabInfo
  | [], _ => none
  | p :: rest, k => if p.1 = k then some p.2 else mapLookup rest k

/-- JS Map.delete. -/
def mapDelete (m : PresenceTable) (k : TabId) : PresenceTable :=
  m.filter (fun p => decide (p.1 ≠ k))

/-- JS Array.from of Map.keys, in insertion order. -/
def mapKeys (m : PresenceTable) : List TabId := m.map Prod.fst

/-- determineLeadership (src/src/index.tsx lines 102-122): collect the table
keys, push the own id, sort lexicographically, and compare the first element
with the own id.  The boolean result is what the source returns; the mutation
of isLeaderRef is modeled where the callers store this result. -/
def determineLeadership (table : PresenceTable) (selfId : TabId) : Bool :=
  let allTabIds := mapKeys table ++ [selfId]
  let sorted := List.insertionSort idLe allTabIds
  decide (sorted.head? = some selfId)

theorem determineLeadership_iff (table : PresenceTable) (selfId : TabId) :
    determineLeadership table selfId = true ↔
      ∀ k ∈ mapKeys table, charListLe selfId k = true := by
  have hperm := List.perm_insertionSort idLe (mapKeys table ++ [selfId])
  have hsort := List.sorted_insertionSort idLe (mapKeys table ++ [selfId])
  have hmem : selfId ∈ List.insertionSort idLe (mapKeys table ++ [selfId]) :=
    hperm.mem_iff.mpr (by simp)
  obtain ⟨h, t, heq⟩ := List.exists_cons_of_ne_nil (List.ne_nil_of_mem hmem)
  have hmin : ∀ x ∈ List.insertionSort idLe (mapKeys table ++ [selfId]),
      charListLe h x = true := by
    intro x hx
    rw [heq] at hx
    rcases List.mem_cons.mp hx with rfl | hx
    · exact charListLe_refl x
    · exact List.rel_of_sorted_cons (heq ▸ hsort) x hx
  have hform : determineLeadership table selfId = true ↔ h = selfId := by
    simp [determineLeadership, heq]
  constructor
  · intro hd k hk
    rw [hform.mp hd] at hmin
    exact hmin k (hperm.mem_iff.mpr (by simp [hk]))
  · intro hall
    refine hform.mpr (charListLe_antisymm h selfId (hmin selfId hmem) ?_)
    have hh : h ∈ mapKeys table ++ [selfId] := hperm.mem_iff.mp (heq ▸ List.mem_cons_self h t)
    rcases List.mem_append.mp hh with hh | hh
    · exact hall h hh
    · rw [List.mem_singleton.mp hh]
      exact charListLe_refl selfId

/-- C1: determineLeadership returns true if and only if the self id is
lexicographically at most every id in the presence table, and any two
instances whose id sets (table keys together with the own id) coincide agree
on the leader: at most one of them computes true. -/
theorem determineLeadership_minimal (tA tB : PresenceTable) (a b : TabId)
    (hset : ∀ x, x ∈ a :: mapKeys tA ↔ x ∈ b :: mapKeys tB) :
    (determineLeadership tA a = true ↔ (mapKeys tA).all (charListLe a) = true) ∧
    (determineLeadership tA a = true → determineLeadership tB b = true → a = b) := by
  have hall : (mapKeys tA).all (charListLe a) = true ↔
      ∀ k ∈ mapKeys tA, charListLe a k = true := List.all_eq_true
  refine ⟨(determineLeadership_iff tA a).trans hall.symm, fun ha hb => ?_⟩
  have ha2 := (determineLeadership_iff tA a).mp ha
  have hb2 := (determineLeadership_iff tB b).mp hb
  have hab : charListLe a b = true := by
    rcases List.mem_cons.mp ((hset b).mpr (List.mem_cons_self b _)) with heq | hmem
    · subst heq
      exact charListLe_refl b
    · exact ha2 b hmem
  have hba : charListLe b a = true := by
    rcases List.mem_cons.mp ((hset a).mp (List.mem_cons_self a _)) with heq | hmem
    · subst heq
      exact charListLe_refl a
    · exact hb2 a hmem
  exact charListLe_antisymm a b hab hba

/-- MessageType from src/unnamed/part_000: the four wire message kinds. -/
inductive MessageType
  | heartbeat
  | tabClosed
  | requestActiveTabs
  | requestLeader
  deriving DecidableEq

/-- TabMessage from src/unnamed/part_000: the unit transmitted over the
BroadcastChannel.  The url field is optional on the wire. -/
structure TabMessage where
  type : MessageType
  tabId : TabId
  timestamp : Int
  url : Option String
  deriving DecidableEq

/-- The values one hook instance closes over: its stable tab id (tabIdRef),
the inactivityThreshold option, whether an onMultiTabChange callback was
supplied, and window.location.href at recomputation time. -/
structure Config where
  selfId : TabId
  inactivityThreshold : Int
  hasCallback : Bool
  currentUrl : String
  deriving DecidableEq

/-- The arguments of one onMultiTabChange invocation. -/
structure Notification where
  isMultiTab : Bool
  tabCount : Nat
  activeTabUrls : List (TabId × String)
  deriving DecidableEq

/-- The mutable state of one hook instance: the refs and React state cells of
src/src/index.tsx.  pendingLeaderCheck models leaderElectionTimerRef as the
scheduled firing instant of the pending delayed leadership re-check, when one
is pending. -/
structure HookState where
  table : PresenceTable
  isMultiTab : Bool
  tabCount : Nat
  activeTabUrls : List (TabId × String)
  isLeader : Bool
  prevIsMultiTab : Bool
  prevTabCount : Nat
  pendingLeaderCheck : Option Int
  deriving DecidableEq

/-- updateTabState (src/src/index.tsx lines 127-186): drop every entry whose
lastHeartbeat is at least inactivityThreshold old, re-insert the own entry
stamped with the current time, recompute count, isMulti and the url map,
re-run the leader determination, and invoke the callback exactly when this
instance is leader, a callback is registered, and the pair of isMulti and
count differs from the last notified pair, in which case that pair is stored
into prevIsMultiTabRef and prevTabCountRef.  The Date.now readings inside one
synchronous handler are modeled as the single instant now. -/
def updateTabState (cfg : Config) (now : Int) (s : HookState) :
    HookState × Option Notification :=
  let activeTabs := s.table.filter
    (fun p => decide (now - p.2.lastHeartbeat < cfg.inactivityThreshold))
  let table1 := mapSet activeTabs cfg.selfId ⟨cfg.selfId, now, cfg.currentUrl⟩
  let newTabCount := table1.length
  let newIsMultiTab := decide (1 < newTabCount)
  let urlMap := table1.map (fun p => (p.1, p.2.url))
  let isLeader := determineLeadership table1 cfg.selfId
  if isLeader && cfg.hasCallback &&
      (s.prevIsMultiTab != newIsMultiTab || s.prevTabCount != newTabCount) then
    ({ table := table1, isMultiTab := newIsMultiTab, tabCount := newTabCount,
       activeTabUrls := urlMap, isLeader := isLeader,
       prevIsMultiTab := newIsMultiTab, prevTabCount := newTabCount,
       pendingLeaderCheck := s.pendingLeaderCheck },
     some ⟨newIsMultiTab, newTabCount, urlMap⟩)
  else
    ({ table := table1, isMultiTab := newIsMultiTab, tabCount := newTabCount,
       activeTabUrls := urlMap, isLeader := isLeader,
       prevIsMultiTab := s.prevIsMultiTab, prevTabCount := s.prevTabCount,
       pendingLeaderCheck := s.pendingLeaderCheck }, none)

/-- The upsert performed for heartbeat and request-active-tabs messages
(src/src/index.tsx lines 233-237): overwrite the sender entry with the
sender-declared timestamp and url, the empty string standing in when the url
field is absent. -/
def upsertFromMessage (table : PresenceTable) (msg : TabMessage) : PresenceTable :=
  mapSet table msg.tabId ⟨msg.tabId, msg.timestamp, msg.url.getD ""⟩

/-- The debounce delay of the leader re-evaluation timer (100 ms,
src/src/index.tsx line 263). -/
def leaderElectionDelay : Int := 100

/-- handleMessage (src/src/index.tsx lines 218-274): ignore own messages;
upsert and recompute on heartbeat; the same plus a heartbeat reply on
request-active-tabs; delete and recompute on tab-closed; and on
request-leader reply with a heartbeat and replace any pending delayed
leadership re-check with a fresh one.  Returns the new state, the kinds of
the messages published, and the callback invocation when one fired. -/
def handleMessage (cfg : Config) (now : Int) (s : HookState) (msg : TabMessage) :
    HookState × List MessageType × Option Notification :=
  if msg.tabId = cfg.selfId then (s, [], none)
  else
    match msg.type with
    | .heartbeat =>
      let r := updateTabState cfg now { s with table := upsertFromMessage s.table msg }
      (r.1, [], r.2)
    | .requestActiveTabs =>
      let r := updateTabState cfg now { s with table := upsertFromMessage s.table msg }
      (r.1, [.heartbeat], r.2)
    | .tabClosed =>
      let r := updateTabState cfg now { s with table := mapDelete s.table msg.tabId }
      (r.1, [], r.2)
    | .requestLeader =>
      ({ s with pendingLeaderCheck := some (now + leaderElectionDelay) }, [.heartbeat], none)

/-- The eviction test of cleanupInactiveTabs (src/src/index.tsx lines
283-292): an entry is deleted when its key differs from the own id and its
lastHeartbeat is at least inactivityThreshold old. -/
def isStale (cfg : Config) (now : Int) (p : TabId × TabInfo) : Bool :=
  decide (p.1 ≠ cfg.selfId) && decide (cfg.inactivityThreshold ≤ now - p.2.lastHeartbeat)

/-- cleanupInactiveTabs (src/src/index.tsx lines 279-297): delete every stale
entry and recompute the aggregate state only when at least one entry was
deleted. -/
def cleanupInactiveTabs (cfg : Config) (now : Int) (s : HookState) :
    HookState × Option Notification :=
  let table1 := s.table.filter (fun p => !(isStale cfg now p))
  if s.table.any (isStale cfg now) then
    updateTabState cfg now { s with table := table1 }
  else
    ({ s with table := table1 }, none)

/-- The initial values of the refs and state cells of the hook
(src/src/index.tsx lines 55-84): empty table, count 1, not multi, assumed
leader, last-notified pair false and 1, no pending timer. -/
def initialHookState : HookState :=
  { table := [], isMultiTab := false, tabCount := 1, activeTabUrls := [],
    isLeader := true, prevIsMultiTab := false, prevTabCount := 1,
    pendingLeaderCheck := none }

/-- Observable outcome of mounting the hook (the useEffect body,
src/src/index.tsx lines 299-381). -/
structure InitResult where
  state : HookState
  isSupported : Bool
  sent : List MessageType
  heartbeatTimer : Bool
  cleanupTimer : Bool
  deriving DecidableEq

/-- The useEffect body: when BroadcastChannel is unavailable the effect only
records isSupported false and returns; otherwise it subscribes, publishes
request-active-tabs, starts the heartbeat and cleanup timers, publishes an
immediate heartbeat, and runs the first updateTabState. -/
def initInstance (cfg : Config) (supported : Bool) (now : Int) : InitResult :=
  if supported then
    { state := (updateTabState cfg now initialHookState).1,
      isSupported := true,
      sent := [.requestActiveTabs, .heartbeat],
      heartbeatTimer := true, cleanupTimer := true }
  else
    { state := initialHookState, isSupported := false, sent := [],
      heartbeatTimer := false, cleanupTimer := false }

/-- One atomic unit of work of a mounted instance: a delivered message, a
reaper sweep, a heartbeat tick (which publishes and leaves the local state
unchanged), or the firing of the delayed leadership re-check. -/
inductive Event
  | message (now : Int) (msg : TabMessage)
  | cleanup (now : Int)
  | heartbeatTick (now : Int)
  | leaderCheckFires (now : Int)

/-- The state transition, published kinds, and callback invocation of one
event. -/
def stepResult (cfg : Config) (s : HookState) :
    Event → HookState × List MessageType × Option Notification
  | .message now msg => handleMessage cfg now s msg
  | .cleanup now =>
    let r := cleanupInactiveTabs cfg now s
    (r.1, [], r.2)
  | .heartbeatTick _ => (s, [.heartbeat], none)
  | .leaderCheckFires _ =>
    ({ s with
        isLeader := determineLeadership s.table cfg.selfId
        pendingLeaderCheck := none },
      [], none)

def stepState (cfg : Config) (s : HookState) (e : Event) : HookState :=
  (stepResult cfg s e).1

def stepFired (cfg : Config) (s : HookState) (e : Event) : Option Notification :=
  (stepResult cfg s e).2.2

/-- The last-notified pair after a recomputation: the arguments of the
invocation when one fired, the previous value otherwise. -/
def notifTrack (prev : Option (Bool × Nat)) : Option Notification → Option (Bool × Nat)
  | some n => some (n.isMultiTab, n.tabCount)
  | none => prev

/-- States reachable by a supported instance after mount, paired with the
arguments of the most recent callback invocation, when one has occurred. -/
inductive ReachableN (cfg : Config) : HookState → Option (Bool × Nat) → Prop
  | init (now : Int) :
      ReachableN cfg (updateTabState cfg now initialHookState).1
        (notifTrack none (updateTabState cfg now initialHookState).2)
  | step {s : HookState} {ln : Option (Bool × Nat)} (e : Event) :
      ReachableN cfg s ln →
      ReachableN cfg (stepState cfg s e) (notifTrack ln (stepFired cfg s e))

theorem mapLookup_mapSet_self (m : PresenceTable) (k : TabId) (v : TabInfo) :
    mapLookup (mapSet m k v) k = some v := by
  induction m with
  | nil => simp [mapSet, mapLookup]
  | cons p rest ih =>
    by_cases h : p.1 = k
    · simp [mapSet, h, mapLookup]
    · simp [mapSet, h, mapLookup, ih]

theorem mapLookup_mapSet_ne (m : PresenceTable) (k k2 : TabId) (v : TabInfo)
    (h : k2 ≠ k) : mapLookup (mapSet m k v) k2 = mapLookup m k2 := by
  induction m with
  | nil => simp [mapSet, mapLookup, Ne.symm h]
  | cons p rest ih =>
    by_cases h2 : p.1 = k
    · subst h2
      simp [mapSet, mapLookup, Ne.symm h]
    · by_cases h3 : p.1 = k2 <;> simp [mapSet, h2, mapLookup, h3, h, ih]

theorem mapSet_length_pos (m : PresenceTable) (k : TabId) (v : TabInfo) :
    0 < (mapSet m k v).length := by
  induction m with
  | nil => simp [mapSet]
  | cons p rest _ => by_cases h : p.1 = k <;> simp [mapSet, h]

theorem mem_mapKeys_mapSet (m : PresenceTable) (k : TabId) (v : TabInfo) (x : TabId) :
    x ∈ mapKeys (mapSet m k v) ↔ x ∈ mapKeys m ∨ x = k := by
  induction m with
  | nil => simp [mapSet, mapKeys]
  | cons p rest ih =>
    by_cases h : p.1 = k
    · subst h
      simp [mapSet, mapKeys]
      tauto
    · simp [mapSet, h, mapKeys] at ih ⊢
      tauto

/-- Uniqueness of the keys of the association list, which the JS Map
guarantees by construction. -/
def KeysNodup (m : PresenceTable) : Prop := (mapKeys m).Nodup

instance : DecidablePred KeysNodup :=
  fun _ => inferInstanceAs (Decidable (List.Nodup _))

theorem keysNodup_mapSet (m : PresenceTable) (k : TabId) (v : TabInfo)
    (h : KeysNodup m) : KeysNodup (mapSet m k v) := by
  induction m with
  | nil => simp [KeysNodup, mapSet, mapKeys]
  | cons p rest ih =>
    simp only [KeysNodup, mapKeys, List.map_cons, List.nodup_cons] at h
    by_cases h2 : p.1 = k
    · subst h2
      have hms : mapSet (p :: rest) p.1 v = (p.1, v) :: rest := by
        simp [mapSet]
      rw [hms]
      simp only [KeysNodup, mapKeys, List.map_cons, List.nodup_cons]
      exact h
    · simp only [mapSet, if_neg h2, KeysNodup, mapKeys, List.map_cons, List.nodup_cons]
      refine ⟨?_, ih h.2⟩
      intro hmem
      rcases (mem_mapKeys_mapSet rest k v p.1).mp hmem with hmem2 | hmem2
      · exact h.1 hmem2
      · exact h2 hmem2

theorem mapLookup_eq_none_iff (m : PresenceTable) (k : TabId) :
    mapLookup m k = none ↔ k ∉ mapKeys m := by
  induction m with
  | nil => simp [mapLookup, mapKeys]
  | cons p rest ih =>
    by_cases h : p.1 = k
    · simp [mapLookup, h, mapKeys]
    · simp [mapLookup, h, mapKeys, ih, Ne.symm h]

theorem mapKeys_filter_subset (m : PresenceTable) (f : TabId × TabInfo → Bool)
    (k : TabId) (h : k ∈ mapKeys (m.filter f)) : k ∈ mapKeys m := by
  simp only [mapKeys, List.mem_map] at h ⊢
  obtain ⟨p, hp, rfl⟩ := h
  exact ⟨p, (List.mem_filter.mp hp).1, rfl⟩

theorem keysNodup_filter (m : PresenceTable) (f : TabId × TabInfo → Bool)
    (h : KeysNodup m) : KeysNodup (m.filter f) :=
  List.Nodup.sublist (List.Sublist.map Prod.fst (List.filter_sublist m)) h

theorem mapLookup_filter (m : PresenceTable) (f : TabId × TabInfo → Bool)
    (k : TabId) (info : TabInfo) (hnodup : KeysNodup m)
    (h : mapLookup m k = some info) :
    mapLookup (m.filter f) k = if f (k, info) then some info else none := by
  induction m with
  | nil => simp [mapLookup] at h
  | cons p rest ih =>
    obtain ⟨p1, p2⟩ := p
    have hp : p1 ∉ mapKeys rest := (List.nodup_cons.mp hnodup).1
    have hrest : KeysNodup rest := (List.nodup_cons.mp hnodup).2
    by_cases hk : p1 = k
    · subst hk
      have hinfo : p2 = info := by simpa [mapLookup] using h
      subst hinfo
      by_cases hf : f (p1, p2) = true
      · simp [List.filter_cons, hf, mapLookup]
      · simp only [List.filter_cons, hf, Bool.false_eq_true, ite_false]
        rw [mapLookup_eq_none_iff]
        intro hmem
        exact hp (mapKeys_filter_subset rest f p1 hmem)
    · have h2 : mapLookup rest k = some info := by simpa [mapLookup, hk] using h
      by_cases hf : f (p1, p2) = true
      · simpa [List.filter_cons, hf, mapLookup, hk] using ih hrest h2
      · simpa [List.filter_cons, hf, mapLookup, hk] using ih hrest h2

theorem updateTabState_state (cfg : Config) (now : Int) (s : HookState) :
    (updateTabState cfg now s).1.table =
      mapSet (s.table.filter
        (fun p => decide (now - p.2.lastHeartbeat < cfg.inactivityThreshold)))
        cfg.selfId ⟨cfg.selfId, now, cfg.currentUrl⟩ ∧
    (updateTabState cfg now s).1.tabCount = (updateTabState cfg now s).1.table.length ∧
    (updateTabState cfg now s).1.isMultiTab =
      decide (1 < (updateTabState cfg now s).1.tabCount) ∧
    (updateTabState cfg now s).1.activeTabUrls =
      (updateTabState cfg now s).1.table.map (fun p => (p.1, p.2.url)) ∧
    (updateTabState cfg now s).1.isLeader =
      determineLeadership (updateTabState cfg now s).1.table cfg.selfId ∧
    (updateTabState cfg now s).1.pendingLeaderCheck = s.pendingLeaderCheck := by
  simp only [updateTabState]
  split <;> exact ⟨rfl, rfl, rfl, rfl, rfl, rfl⟩

theorem updateTabState_prev (cfg : Config) (now : Int) (s : HookState) :
    ((updateTabState cfg now s).1.prevIsMultiTab,
     (updateTabState cfg now s).1.prevTabCount) =
      (match (updateTabState cfg now s).2 with
       | some n => (n.isMultiTab, n.tabCount)
       | none => (s.prevIsMultiTab, s.prevTabCount)) := by
  simp only [updateTabState]
  split <;> rfl

theorem updateTabState_fired_iff (cfg : Config) (now : Int) (s : HookState) :
    (updateTabState cfg now s).2 ≠ none ↔
      ((updateTabState cfg now s).1.isLeader = true ∧ cfg.hasCallback = true ∧
        (s.prevIsMultiTab, s.prevTabCount) ≠
          ((updateTabState cfg now s).1.isMultiTab,
           (updateTabState cfg now s).1.tabCount)) := by
  simp only [updateTabState]
  split
  case isTrue h =>
    simp only [Bool.and_eq_true, Bool.or_eq_true, bne_iff_ne, ne_eq] at h
    obtain ⟨⟨h1, h2⟩, h3⟩ := h
    constructor
    · intro _
      refine ⟨h1, h2, fun hc => ?_⟩
      rw [Prod.mk.injEq] at hc
      rcases h3 with h3 | h3
      · exact h3 hc.1
      · exact h3 hc.2
    · intro _
      simp
  case isFalse h =>
    simp only [Bool.and_eq_true, Bool.or_eq_true, bne_iff_ne, not_and, not_or, not_not,
      ne_eq] at h
    constructor
    · intro hc
      exact absurd rfl hc
    · rintro ⟨h1, h2, h3⟩
      apply absurd _ h3
      rw [Prod.mk.injEq]
      exact h ⟨h1, h2⟩

theorem updateTabState_fired_some (cfg : Config) (now : Int) (s : HookState)
    (h : (updateTabState cfg now s).2 ≠ none) :
    (updateTabState cfg now s).2 =
      some ⟨(updateTabState cfg now s).1.isMultiTab,
            (updateTabState cfg now s).1.tabCount,
            (updateTabState cfg now s).1.activeTabUrls⟩ := by
  revert h
  simp only [updateTabState]
  split <;> intro h
  · rfl
  · exact absurd rfl h

theorem cleanupInactiveTabs_no_stale (cfg : Config) (now : Int) (s : HookState)
    (h : s.table.any (isStale cfg now) = false) :
    cleanupInactiveTabs cfg now s = (s, none) := by
  have hfilter : s.table.filter (fun p => !(isStale cfg now p)) = s.table :=
    List.filter_eq_self.mpr (fun p hp => by simp [List.any_eq_false.mp h p hp])
  simp [cleanupInactiveTabs, h, hfilter]

theorem cleanupInactiveTabs_stale (cfg : Config) (now : Int) (s : HookState)
    (h : s.table.any (isStale cfg now) = true) :
    cleanupInactiveTabs cfg now s =
      updateTabState cfg now
        { s with table := s.table.filter (fun p => !(isStale cfg now p)) } := by
  simp [cleanupInactiveTabs, h]

theorem handleMessage_self (cfg : Config) (now : Int) (s : HookState) (msg : TabMessage)
    (h : msg.tabId = cfg.selfId) : handleMessage cfg now s msg = (s, [], none) := by
  simp [handleMessage, h]

theorem handleMessage_heartbeat (cfg : Config) (now : Int) (s : HookState)
    (msg : TabMessage) (h : msg.tabId ≠ cfg.selfId) (ht : msg.type = .heartbeat) :
    handleMessage cfg now s msg =
      ((updateTabState cfg now { s with table := upsertFromMessage s.table msg }).1, [],
       (updateTabState cfg now { s with table := upsertFromMessage s.table msg }).2) := by
  simp [handleMessage, h, ht]

theorem handleMessage_requestActiveTabs (cfg : Config) (now : Int) (s : HookState)
    (msg : TabMessage) (h : msg.tabId ≠ cfg.selfId) (ht : msg.type = .requestActiveTabs) :
    handleMessage cfg now s msg =
      ((updateTabState cfg now { s with table := upsertFromMessage s.table msg }).1,
       [.heartbeat],
       (updateTabState cfg now { s with table := upsertFromMessage s.table msg }).2) := by
  simp [handleMessage, h, ht]

theorem handleMessage_tabClosed (cfg : Config) (now : Int) (s : HookState)
    (msg : TabMessage) (h : msg.tabId ≠ cfg.selfId) (ht : msg.type = .tabClosed) :
    handleMessage cfg now s msg =
      ((updateTabState cfg now { s with table := mapDelete s.table msg.tabId }).1, [],
       (updateTabState cfg now { s with table := mapDelete s.table msg.tabId }).2) := by
  simp [handleMessage, h, ht]

theorem handleMessage_requestLeader (cfg : Config) (now : Int) (s : HookState)
    (msg : TabMessage) (h : msg.tabId ≠ cfg.selfId) (ht : msg.type = .requestLeader) :
    handleMessage cfg now s msg =
      ({ s with pendingLeaderCheck := some (now + leaderElectionDelay) },
       [.heartbeat], none) := by
  simp [handleMessage, h, ht]

/-- The aggregate invariant: the own entry is present, the exposed count is
the table size and at least one, and isMulti mirrors count exceeding one. -/
def StateOK (cfg : Config) (s : HookState) : Prop :=
  mapLookup s.table cfg.selfId ≠ none ∧ s.tabCount = s.table.length ∧
  1 ≤ s.tabCount ∧ s.isMultiTab = decide (1 < s.tabCount)

theorem updateTabState_ok (cfg : Config) (now : Int) (s : HookState) :
    StateOK cfg (updateTabState cfg now s).1 := by
  obtain ⟨ht, hc, hm, -, -, -⟩ := updateTabState_state cfg now s
  refine ⟨?_, hc, ?_, hm⟩
  · rw [ht, mapLookup_mapSet_self]
    simp
  · rw [hc, ht]
    exact mapSet_length_pos _ _ _

theorem step_ok (cfg : Config) (s : HookState) (e : Event) (h : StateOK cfg s) :
    StateOK cfg (stepState cfg s e) := by
  cases e with
  | message now msg =>
    by_cases hself : msg.tabId = cfg.selfId
    · have hs : stepState cfg s (.message now msg) = s := by
        simp [stepState, stepResult, handleMessage_self cfg now s msg hself]
      rw [hs]
      exact h
    · cases htype : msg.type with
      | heartbeat =>
        have hs : stepState cfg s (.message now msg) =
            (updateTabState cfg now { s with table := upsertFromMessage s.table msg }).1 := by
          simp [stepState, stepResult, handleMessage_heartbeat cfg now s msg hself htype]
        rw [hs]
        exact updateTabState_ok cfg now _
      | requestActiveTabs =>
        have hs : stepState cfg s (.message now msg) =
            (updateTabState cfg now { s with table := upsertFromMessage s.table msg }).1 := by
          simp [stepState, stepResult,
            handleMessage_requestActiveTabs cfg now s msg hself htype]
        rw [hs]
        exact updateTabState_ok cfg now _
      | tabClosed =>
        have hs : stepState cfg s (.message now msg) =
            (updateTabState cfg now { s with table := mapDelete s.table msg.tabId }).1 := by
          simp [stepState, stepResult, handleMessage_tabClosed cfg now s msg hself htype]
        rw [hs]
        exact updateTabState_ok cfg now _
      | requestLeader =>
        have hs : stepState cfg s (.message now msg) =
            { s with pendingLeaderCheck := some (now + leaderElectionDelay) } := by
          simp [stepState, stepResult, handleMessage_requestLeader cfg now s msg hself htype]
        rw [hs]
        exact ⟨h.1, h.2.1, h.2.2.1, h.2.2.2⟩
  | cleanup now =>
    by_cases hstale : s.table.any (isStale cfg now) = true
    · have hs : stepState cfg s (.cleanup now) =
          (updateTabState cfg now
            { s with table := s.table.filter (fun p => !(isStale cfg now p)) }).1 := by
        simp [stepState, stepResult, cleanupInactiveTabs_stale cfg now s hstale]
      rw [hs]
      exact updateTabState_ok cfg now _
    · have hs : stepState cfg s (.cleanup now) = s := by
        simp [stepState, stepResult,
          cleanupInactiveTabs_no_stale cfg now s (Bool.eq_false_iff.mpr hstale)]
      rw [hs]
      exact h
  | heartbeatTick now => exact h
  | leaderCheckFires now => exact ⟨h.1, h.2.1, h.2.2.1, h.2.2.2⟩

theorem step_prev (cfg : Config) (s : HookState) (e : Event) :
    ((stepState cfg s e).prevIsMultiTab, (stepState cfg s e).prevTabCount) =
      (match stepFired cfg s e with
       | some n => (n.isMultiTab, n.tabCount)
       | none => (s.prevIsMultiTab, s.prevTabCount)) := by
  cases e with
  | message now msg =>
    by_cases hself : msg.tabId = cfg.selfId
    · simp [stepState, stepFired, stepResult, handleMessage_self cfg now s msg hself]
    · cases htype : msg.type with
      | heartbeat =>
        simp only [stepState, stepFired, stepResult,
          handleMessage_heartbeat cfg now s msg hself htype]
        exact updateTabState_prev cfg now _
      | requestActiveTabs =>
        simp only [stepState, stepFired, stepResult,
          handleMessage_requestActiveTabs cfg now s msg hself htype]
        exact updateTabState_prev cfg now _
      | tabClosed =>
        simp only [stepState, stepFired, stepResult,
          handleMessage_tabClosed cfg now s msg hself htype]
        exact updateTabState_prev cfg now _
      | requestLeader =>
        simp [stepState, stepFired, stepResult,
          handleMessage_requestLeader cfg now s msg hself htype]
  | cleanup now =>
    by_cases hstale : s.table.any (isStale cfg now) = true
    · simp only [stepState, stepFired, stepResult,
        cleanupInactiveTabs_stale cfg now s hstale]
      exact updateTabState_prev cfg now _
    · simp [stepState, stepFired, stepResult,
        cleanupInactiveTabs_no_stale cfg now s (Bool.eq_false_iff.mpr hstale)]
  | heartbeatTick now => rfl
  | leaderCheckFires now => rfl

theorem mapLookup_some_mem (m : PresenceTable) (k : TabId) (info : TabInfo)
    (h : mapLookup m k = some info) : (k, info) ∈ m := by
  induction m with
  | nil => simp [mapLookup] at h
  | cons p rest ih =>
    by_cases hk : p.1 = k
    · have : p.2 = info := by simpa [mapLookup, hk] using h
      subst hk
      subst this
      exact List.mem_cons_self _ _
    · exact List.mem_cons_of_mem _ (ih (by simpa [mapLookup, hk] using h))

theorem mapLookup_filter_none (m : PresenceTable) (f : TabId × TabInfo → Bool)
    (k : TabId) (h : mapLookup m k = none) : mapLookup (m.filter f) k = none := by
  rw [mapLookup_eq_none_iff] at h ⊢
  exact fun hm => h (mapKeys_filter_subset m f k hm)

/-- Concrete fixture: a configuration whose instance has id a, threshold 100
and a registered callback. -/
def cfgA : Config :=
  { selfId := ['a'], inactivityThreshold := 100, hasCallback := true, currentUrl := "ua" }

/-- Concrete fixture: a configuration whose instance has id a, threshold 100
and no registered callback. -/
def cfgC : Config :=
  { selfId := ['a'], inactivityThreshold := 100, hasCallback := false, currentUrl := "ua" }

def infoA : TabInfo := { tabId := ['a'], lastHeartbeat := 150, url := "ua" }

def infoB : TabInfo := { tabId := ['b'], lastHeartbeat := 190, url := "ub" }

def infoCold : TabInfo := { tabId := ['c'], lastHeartbeat := 0, url := "uc" }

/-- Concrete fixture: a state whose table holds a fresh own entry and a peer
entry whose last heartbeat is 200 time units old. -/
def stateAC : HookState :=
  { initialHookState with table := [(['a'], infoA), (['c'], infoCold)] }

/-- Concrete fixture: a state whose table holds one fresh peer entry. -/
def stateB : HookState :=
  { initialHookState with table := [(['b'], infoB)] }

def msgHeartbeatB : TabMessage :=
  { type := .heartbeat, tabId := ['b'], timestamp := 200, url := some "ub" }

def msgRequestTabsB : TabMessage :=
  { type := .requestActiveTabs, tabId := ['b'], timestamp := 200, url := some "ub" }

def msgRequestLeaderB : TabMessage :=
  { type := .requestLeader, tabId := ['b'], timestamp := 300, url := none }

theorem determineLeadership_minimal_witness :
    (determineLeadership [(['b'], infoB)] ['a'] = true ↔
      (mapKeys [(['b'], infoB)]).all (charListLe ['a']) = true) ∧
    (determineLeadership [(['b'], infoB)] ['a'] = true →
      determineLeadership [(['a'], infoA)] ['b'] = true → (['a'] : TabId) = ['b']) :=
  determineLeadership_minimal [(['b'], infoB)] [(['a'], infoA)] ['a'] ['b']
    (by intro x; simp [mapKeys, infoA, infoB, or_comm])

/-- C2: updateTabState invokes the callback if and only if this instance is
leader, a callback is registered, and the new pair of isMulti and count
differs from the last notified pair; when it fires it passes the new
aggregate values and stores the new pair, when it does not fire the stored
pair is untouched, and a second recomputation whose aggregate values are
unchanged never fires again right after one that fired. -/
theorem updateTabState_notifies_iff_changed (cfg : Config) (now now2 : Int)
    (s : HookState) :
    ((updateTabState cfg now s).2 ≠ none ↔
      ((updateTabState cfg now s).1.isLeader = true ∧ cfg.hasCallback = true ∧
        (s.prevIsMultiTab, s.prevTabCount) ≠
          ((updateTabState cfg now s).1.isMultiTab,
           (updateTabState cfg now s).1.tabCount))) ∧
    ((updateTabState cfg now s).2 ≠ none →
      (updateTabState cfg now s).2 =
        some ⟨(updateTabState cfg now s).1.isMultiTab,
              (updateTabState cfg now s).1.tabCount,
              (updateTabState cfg now s).1.activeTabUrls⟩ ∧
      ((updateTabState cfg now s).1.prevIsMultiTab,
       (updateTabState cfg now s).1.prevTabCount) =
        ((updateTabState cfg now s).1.isMultiTab,
         (updateTabState cfg now s).1.tabCount)) ∧
    ((updateTabState cfg now s).2 = none →
      ((updateTabState cfg now s).1.prevIsMultiTab,
       (updateTabState cfg now s).1.prevTabCount) =
        (s.prevIsMultiTab, s.prevTabCount)) ∧
    ((updateTabState cfg now s).2 ≠ none →
      (updateTabState cfg now2 (updateTabState cfg now s).1).1.isMultiTab =
        (updateTabState cfg now s).1.isMultiTab →
      (updateTabState cfg now2 (updateTabState cfg now s).1).1.tabCount =
        (updateTabState cfg now s).1.tabCount →
      (updateTabState cfg now2 (updateTabState cfg now s).1).2 = none) := by
  have hfs : (updateTabState cfg now s).2 ≠ none →
      (updateTabState cfg now s).2 =
        some ⟨(updateTabState cfg now s).1.isMultiTab,
              (updateTabState cfg now s).1.tabCount,
              (updateTabState cfg now s).1.activeTabUrls⟩ ∧
      ((updateTabState cfg now s).1.prevIsMultiTab,
       (updateTabState cfg now s).1.prevTabCount) =
        ((updateTabState cfg now s).1.isMultiTab,
         (updateTabState cfg now s).1.tabCount) := by
    intro h
    have hsome := updateTabState_fired_some cfg now s h
    refine ⟨hsome, ?_⟩
    have hp := updateTabState_prev cfg now s
    rw [hsome] at hp
    exact hp
  refine ⟨updateTabState_fired_iff cfg now s, hfs, ?_, ?_⟩
  · intro h
    have hp := updateTabState_prev cfg now s
    rw [h] at hp
    exact hp
  · intro h hm hc
    by_contra h2
    have hne := (updateTabState_fired_iff cfg now2 (updateTabState cfg now s).1).mp h2
    apply hne.2.2
    rw [(hfs h).2, hm, hc]

theorem updateTabState_notifies_iff_changed_witness :
    ((updateTabState cfgA 200 stateB).2 ≠ none ↔
      ((updateTabState cfgA 200 stateB).1.isLeader = true ∧ cfgA.hasCallback = true ∧
        (stateB.prevIsMultiTab, stateB.prevTabCount) ≠
          ((updateTabState cfgA 200 stateB).1.isMultiTab,
           (updateTabState cfgA 200 stateB).1.tabCount))) ∧
    ((updateTabState cfgA 200 stateB).2 ≠ none →
      (updateTabState cfgA 200 stateB).2 =
        some ⟨(updateTabState cfgA 200 stateB).1.isMultiTab,
              (updateTabState cfgA 200 stateB).1.tabCount,
              (updateTabState cfgA 200 stateB).1.activeTabUrls⟩ ∧
      ((updateTabState cfgA 200 stateB).1.prevIsMultiTab,
       (updateTabState cfgA 200 stateB).1.prevTabCount) =
        ((updateTabState cfgA 200 stateB).1.isMultiTab,
         (updateTabState cfgA 200 stateB).1.tabCount)) ∧
    ((updateTabState cfgA 200 stateB).2 = none →
      ((updateTabState cfgA 200 stateB).1.prevIsMultiTab,
       (updateTabState cfgA 200 stateB).1.prevTabCount) =
        (stateB.prevIsMultiTab, stateB.prevTabCount)) ∧
    ((updateTabState cfgA 200 stateB).2 ≠ none →
      (updateTabState cfgA 210 (updateTabState cfgA 200 stateB).1).1.isMultiTab =
        (updateTabState cfgA 200 stateB).1.isMultiTab →
      (updateTabState cfgA 210 (updateTabState cfgA 200 stateB).1).1.tabCount =
        (updateTabState cfgA 200 stateB).1.tabCount →
      (updateTabState cfgA 210 (updateTabState cfgA 200 stateB).1).2 = none) :=
  updateTabState_notifies_iff_changed cfgA 200 210 stateB

/-- C6: for a heartbeat or request-active-tabs message from another instance,
the sender entry is written with the sender-declared timestamp and url (empty
string when the url field is absent), and exactly one heartbeat is published
in reply to request-active-tabs and none in reply to a plain heartbeat. -/
theorem handleMessage_upsert_trusts_sender (cfg : Config) (now : Int) (s : HookState)
    (msg : TabMessage) (hb : msg.tabId ≠ cfg.selfId)
    (ht : msg.type = .heartbeat ∨ msg.type = .requestActiveTabs) :
    mapLookup (upsertFromMessage s.table msg) msg.tabId =
      some ⟨msg.tabId, msg.timestamp, msg.url.getD ""⟩ ∧
    (handleMessage cfg now s msg).2.1 =
      if msg.type = .requestActiveTabs then [.heartbeat] else [] := by
  refine ⟨mapLookup_mapSet_self _ _ _, ?_⟩
  rcases ht with ht | ht
  · rw [handleMessage_heartbeat cfg now s msg hb ht, ht]
    rfl
  · rw [handleMessage_requestActiveTabs cfg now s msg hb ht, ht]
    rfl

theorem handleMessage_upsert_trusts_sender_witness :
    (mapLookup (upsertFromMessage stateAC.table msgRequestTabsB) msgRequestTabsB.tabId =
      some ⟨msgRequestTabsB.tabId, msgRequestTabsB.timestamp,
            msgRequestTabsB.url.getD ""⟩ ∧
    (handleMessage cfgA 200 stateAC msgRequestTabsB).2.1 =
      if msgRequestTabsB.type = .requestActiveTabs then [.heartbeat] else []) :=
  handleMessage_upsert_trusts_sender cfgA 200 stateAC msgRequestTabsB (by decide)
    (Or.inr rfl)

/-- C7: a request-leader message from another instance is answered with one
heartbeat and replaces any pending delayed leadership re-check by one
scheduled the debounce delay after receipt, so a second request-leader
arriving before it fires leaves a single pending re-check scheduled relative
to the later message. -/
theorem handleMessage_requestLeader_debounce (cfg : Config) (now now2 : Int)
    (s : HookState) (msg msg2 : TabMessage)
    (h1 : msg.type = .requestLeader) (hb1 : msg.tabId ≠ cfg.selfId)
    (h2 : msg2.type = .requestLeader) (hb2 : msg2.tabId ≠ cfg.selfId) :
    (handleMessage cfg now s msg).2.1 = [.heartbeat] ∧
    (handleMessage cfg now s msg).1.pendingLeaderCheck =
      some (now + leaderElectionDelay) ∧
    (handleMessage cfg now2 (handleMessage cfg now s msg).1 msg2).1.pendingLeaderCheck =
      some (now2 + leaderElectionDelay) := by
  rw [handleMessage_requestLeader cfg now s msg hb1 h1]
  refine ⟨rfl, rfl, ?_⟩
  rw [handleMessage_requestLeader cfg now2 _ msg2 hb2 h2]

theorem handleMessage_requestLeader_debounce_witness :
    (handleMessage cfgA 300 stateB msgRequestLeaderB).2.1 = [.heartbeat] ∧
    (handleMessage cfgA 300 stateB msgRequestLeaderB).1.pendingLeaderCheck =
      some (300 + leaderElectionDelay) ∧
    (handleMessage cfgA 320 (handleMessage cfgA 300 stateB msgRequestLeaderB).1
        msgRequestLeaderB).1.pendingLeaderCheck =
      some (320 + leaderElectionDelay) :=
  handleMessage_requestLeader_debounce cfgA 300 320 stateB msgRequestLeaderB
    msgRequestLeaderB rfl (by decide) rfl (by decide)

/-- C8: when BroadcastChannel is unavailable the mount publishes nothing,
starts no timers, and leaves the exposed state at isSupported false, count 1
and isMulti false for the lifetime of the instance, since without channel
and timers no event source exists. -/
theorem initInstance_unsupported_inert (cfg : Config) (now : Int) :
    (initInstance cfg false now).isSupported = false ∧
    (initInstance cfg false now).sent = [] ∧
    (initInstance cfg false now).heartbeatTimer = false ∧
    (initInstance cfg false now).cleanupTimer = false ∧
    (initInstance cfg false now).state = initialHookState ∧
    (initInstance cfg false now).state.tabCount = 1 ∧
    (initInstance cfg false now).state.isMultiTab = false := by
  refine ⟨rfl, rfl, rfl, rfl, rfl, rfl, rfl⟩

/-- C9: handling a request-leader message from another instance leaves the
presence table, the exposed count, isMulti and url map, and the last
notified pair unchanged, and fires no callback. -/
theorem handleMessage_requestLeader_frame (cfg : Config) (now : Int) (s : HookState)
    (msg : TabMessage) (h1 : msg.type = .requestLeader) (hb : msg.tabId ≠ cfg.selfId) :
    (handleMessage cfg now s msg).1.table = s.table ∧
    (handleMessage cfg now s msg).1.tabCount = s.tabCount ∧
    (handleMessage cfg now s msg).1.isMultiTab = s.isMultiTab ∧
    (handleMessage cfg now s msg).1.activeTabUrls = s.activeTabUrls ∧
    (handleMessage cfg now s msg).1.prevIsMultiTab = s.prevIsMultiTab ∧
    (handleMessage cfg now s msg).1.prevTabCount = s.prevTabCount ∧
    (handleMessage cfg now s msg).2.2 = none := by
  rw [handleMessage_requestLeader cfg now s msg hb h1]
  exact ⟨rfl, rfl, rfl, rfl, rfl, rfl, rfl⟩

theorem handleMessage_requestLeader_frame_witness :
    (handleMessage cfgA 300 stateB msgRequestLeaderB).1.table = stateB.table ∧
    (handleMessage cfgA 300 stateB msgRequestLeaderB).1.tabCount = stateB.tabCount ∧
    (handleMessage cfgA 300 stateB msgRequestLeaderB).1.isMultiTab = stateB.isMultiTab ∧
    (handleMessage cfgA 300 stateB msgRequestLeaderB).1.activeTabUrls =
      stateB.activeTabUrls ∧
    (handleMessage cfgA 300 stateB msgRequestLeaderB).1.prevIsMultiTab =
      stateB.prevIsMultiTab ∧
    (handleMessage cfgA 300 stateB msgRequestLeaderB).1.prevTabCount =
      stateB.prevTabCount ∧
    (handleMessage cfgA 300 stateB msgRequestLeaderB).2.2 = none :=
  handleMessage_requestLeader_frame cfgA 300 stateB msgRequestLeaderB rfl (by decide)

/-- C3 (counterexample): with peer entry c 200 time units old and threshold
100, handling a plain heartbeat from peer b removes the still-present entry
of c from the table, although the reaper never ran. -/
theorem heartbeat_evicts_stale_peer :
    mapLookup stateAC.table ['c'] = some infoCold ∧
    msgHeartbeatB.type = .heartbeat ∧
    msgHeartbeatB.tabId = ['b'] ∧ (['c'] : TabId) ≠ ['b'] ∧
    (['c'] : TabId) ≠ cfgC.selfId ∧
    mapLookup (handleMessage cfgC 200 stateAC msgHeartbeatB).1.table ['c'] = none := by
  decide

/-- C3 (amended): staleness-based removal is not confined to the reaper:
handling a heartbeat from one peer triggers updateTabState, which itself
removes every other entry whose lastHeartbeat is at least inactivityThreshold
old and keeps every strictly fresher one unchanged. -/
theorem handleMessage_heartbeat_stale_filtering (cfg : Config) (now : Int)
    (s : HookState) (msg : TabMessage) (k : TabId) (info : TabInfo)
    (hnodup : KeysNodup s.table) (ht : msg.type = .heartbeat)
    (hb : msg.tabId ≠ cfg.selfId) (hk1 : k ≠ msg.tabId) (hk2 : k ≠ cfg.selfId)
    (hlook : mapLookup s.table k = some info) :
    mapLookup (handleMessage cfg now s msg).1.table k =
      if now - info.lastHeartbeat < cfg.inactivityThreshold then some info else none := by
  have h1 : mapLookup (upsertFromMessage s.table msg) k = some info := by
    unfold upsertFromMessage
    rw [mapLookup_mapSet_ne _ _ _ _ hk1]
    exact hlook
  have h2 : KeysNodup (upsertFromMessage s.table msg) := keysNodup_mapSet _ _ _ hnodup
  obtain ⟨hts, -, -, -, -, -⟩ :=
    updateTabState_state cfg now { s with table := upsertFromMessage s.table msg }
  rw [handleMessage_heartbeat cfg now s msg hb ht]
  dsimp only
  rw [hts]
  dsimp only
  rw [mapLookup_mapSet_ne _ _ _ _ hk2, mapLookup_filter _ _ _ _ h2 h1]
  simp only [decide_eq_true_eq]

def infoCFresh : TabInfo := { tabId := ['c'], lastHeartbeat := 180, url := "uc" }

def stateCFresh : HookState :=
  { initialHookState with table := [(['c'], infoCFresh)] }

theorem handleMessage_heartbeat_stale_filtering_witness :
    mapLookup (handleMessage cfgC 200 stateCFresh msgHeartbeatB).1.table ['c'] =
      if (200 : Int) - infoCFresh.lastHeartbeat < cfgC.inactivityThreshold
      then some infoCFresh else none :=
  handleMessage_heartbeat_stale_filtering cfgC 200 stateCFresh msgHeartbeatB ['c']
    infoCFresh (by decide) rfl (by decide) (by decide) (by decide) (by decide)

/-- C4: a reaper sweep removes exactly the non-self entries at least
inactivityThreshold old; when no entry is stale the whole state is untouched
and nothing fires; when at least one entry was removed the aggregate state
is recomputed (self refreshed to the sweep instant, count and isMulti
re-derived from the table); and the self entry is present afterwards
whenever it was before. -/
theorem cleanupInactiveTabs_evicts_exactly_stale (cfg : Config) (now : Int)
    (s : HookState) (k : TabId) (info : TabInfo) (hnodup : KeysNodup s.table)
    (hk : k ≠ cfg.selfId) (hlook : mapLookup s.table k = some info) :
    (mapLookup (cleanupInactiveTabs cfg now s).1.table k =
      if cfg.inactivityThreshold ≤ now - info.lastHeartbeat then none else some info) ∧
    (s.table.any (isStale cfg now) = false →
      (cleanupInactiveTabs cfg now s).1 = s ∧ (cleanupInactiveTabs cfg now s).2 = none) ∧
    (s.table.any (isStale cfg now) = true →
      mapLookup (cleanupInactiveTabs cfg now s).1.table cfg.selfId =
        some ⟨cfg.selfId, now, cfg.currentUrl⟩ ∧
      (cleanupInactiveTabs cfg now s).1.tabCount =
        (cleanupInactiveTabs cfg now s).1.table.length ∧
      (cleanupInactiveTabs cfg now s).1.isMultiTab =
        decide (1 < (cleanupInactiveTabs cfg now s).1.tabCount)) ∧
    (mapLookup s.table cfg.selfId ≠ none →
      mapLookup (cleanupInactiveTabs cfg now s).1.table cfg.selfId ≠ none) := by
  by_cases hstale : s.table.any (isStale cfg now) = true
  · have hc := cleanupInactiveTabs_stale cfg now s hstale
    obtain ⟨hts, hcount, hmulti, -, -, -⟩ :=
      updateTabState_state cfg now
        { s with table := s.table.filter (fun p => !(isStale cfg now p)) }
    have hnodup2 : KeysNodup (s.table.filter (fun p => !(isStale cfg now p))) :=
      keysNodup_filter _ _ hnodup
    refine ⟨?_, ?_, fun _ => ?_, fun _ => ?_⟩
    · rw [hc, hts]
      dsimp only
      rw [mapLookup_mapSet_ne _ _ _ _ hk]
      by_cases hd : cfg.inactivityThreshold ≤ now - info.lastHeartbeat
      · have hf1n : mapLookup (s.table.filter (fun p => !(isStale cfg now p))) k = none := by
          rw [mapLookup_filter s.table _ k info hnodup hlook]
          simp [isStale, hk, hd]
        rw [mapLookup_filter_none _ _ _ hf1n, if_pos hd]
      · have hf1s : mapLookup (s.table.filter (fun p => !(isStale cfg now p))) k =
            some info := by
          rw [mapLookup_filter s.table _ k info hnodup hlook]
          simp [isStale, hk, hd]
        rw [mapLookup_filter _ _ _ _ hnodup2 hf1s, if_neg hd]
        simp [not_le.mp hd]
    · intro hfalse
      rw [hstale] at hfalse
      exact Bool.noConfusion hfalse
    · rw [hc]
      refine ⟨?_, hcount, hmulti⟩
      rw [hts]
      dsimp only
      rw [mapLookup_mapSet_self]
    · rw [hc, hts]
      dsimp only
      rw [mapLookup_mapSet_self]
      simp
  · have hfalse : s.table.any (isStale cfg now) = false := Bool.eq_false_iff.mpr hstale
    have hc := cleanupInactiveTabs_no_stale cfg now s hfalse
    have hmem := mapLookup_some_mem s.table k info hlook
    have hns := List.any_eq_false.mp hfalse _ hmem
    have hd : ¬ cfg.inactivityThreshold ≤ now - info.lastHeartbeat := by
      simpa [isStale, hk] using hns
    refine ⟨?_, fun _ => ?_, fun htrue => ?_, fun h => ?_⟩
    · rw [hc, if_neg hd]
      exact hlook
    · rw [hc]
      exact ⟨rfl, rfl⟩
    · rw [hfalse] at htrue
      exact Bool.noConfusion htrue
    · rw [hc]
      exact h

theorem cleanupInactiveTabs_evicts_exactly_stale_witness :
    (mapLookup (cleanupInactiveTabs cfgC 200 stateAC).1.table ['c'] =
      if cfgC.inactivityThreshold ≤ (200 : Int) - infoCold.lastHeartbeat
      then none else some infoCold) ∧
    (stateAC.table.any (isStale cfgC 200) = false →
      (cleanupInactiveTabs cfgC 200 stateAC).1 = stateAC ∧
      (cleanupInactiveTabs cfgC 200 stateAC).2 = none) ∧
    (stateAC.table.any (isStale cfgC 200) = true →
      mapLookup (cleanupInactiveTabs cfgC 200 stateAC).1.table cfgC.selfId =
        some ⟨cfgC.selfId, 200, cfgC.currentUrl⟩ ∧
      (cleanupInactiveTabs cfgC 200 stateAC).1.tabCount =
        (cleanupInactiveTabs cfgC 200 stateAC).1.table.length ∧
      (cleanupInactiveTabs cfgC 200 stateAC).1.isMultiTab =
        decide (1 < (cleanupInactiveTabs cfgC 200 stateAC).1.tabCount)) ∧
    (mapLookup stateAC.table cfgC.selfId ≠ none →
      mapLookup (cleanupInactiveTabs cfgC 200 stateAC).1.table cfgC.selfId ≠ none) :=
  cleanupInactiveTabs_evicts_exactly_stale cfgC 200 stateAC ['c'] infoCold
    (by decide) (by decide) (by decide)

/-- C5: in every state reachable after mount, the presence table contains the
own entry, the exposed count equals the table size and is at least one, and
isMulti holds exactly when the count exceeds one. -/
theorem reachable_aggregate_invariant (cfg : Config) (s : HookState)
    (ln : Option (Bool × Nat)) (h : ReachableN cfg s ln) :
    mapLookup s.table cfg.selfId ≠ none ∧ s.tabCount = s.table.length ∧
    1 ≤ s.tabCount ∧ s.isMultiTab = decide (1 < s.tabCount) := by
  induction h with
  | init now => exact updateTabState_ok cfg now initialHookState
  | @step s2 ln2 e hr ih => exact step_ok cfg s2 e ih

theorem reachable_aggregate_invariant_witness :
    mapLookup (updateTabState cfgA 0 initialHookState).1.table cfgA.selfId ≠ none ∧
    (updateTabState cfgA 0 initialHookState).1.tabCount =
      (updateTabState cfgA 0 initialHookState).1.table.length ∧
    1 ≤ (updateTabState cfgA 0 initialHookState).1.tabCount ∧
    (updateTabState cfgA 0 initialHookState).1.isMultiTab =
      decide (1 < (updateTabState cfgA 0 initialHookState).1.tabCount) :=
  reachable_aggregate_invariant cfgA _ _ (ReachableN.init 0)

/-- C10: in every state reachable after mount, the stored last-notified pair
equals the pair passed to the most recent callback invocation, or the
initial pair of false and 1 when no invocation has occurred; it is written
only by a firing recomputation. -/
theorem prev_pair_matches_last_invocation (cfg : Config) (s : HookState)
    (ln : Option (Bool × Nat)) (h : ReachableN cfg s ln) :
    (s.prevIsMultiTab, s.prevTabCount) = ln.getD (false, 1) := by
  induction h with
  | init now =>
    have hp := updateTabState_prev cfg now initialHookState
    cases hfired : (updateTabState cfg now initialHookState).2 with
    | none =>
      rw [hfired] at hp
      simpa [notifTrack, initialHookState] using hp
    | some n =>
      rw [hfired] at hp
      simpa [notifTrack] using hp
  | @step s2 ln2 e hr ih =>
    have hp := step_prev cfg s2 e
    cases hfired : stepFired cfg s2 e with
    | none =>
      rw [hfired] at hp
      dsimp only at hp
      rw [hp]
      simpa [notifTrack] using ih
    | some n =>
      rw [hfired] at hp
      dsimp only at hp
      rw [hp]
      simp [notifTrack]

theorem prev_pair_matches_last_invocation_witness :
    ((updateTabState cfgA 0 initialHookState).1.prevIsMultiTab,
     (updateTabState cfgA 0 initialHookState).1.prevTabCount) =
      (notifTrack none (updateTabState cfgA 0 initialHookState).2).getD (false, 1) :=
  prev_pair_matches_last_invocation cfgA _ _ (ReachableN.init 0)

end MultiTab
